import Mathlib

/-!
Verification of the CLI data-visualization tool's query/transform engine
(milestone_3.py and milestone_4.py): value coercion, condition parsing,
mask evaluation, filtering, stable sorting, and pagination.

The embedding models a pandas DataFrame as a `Table`: a list of column
names plus a list of rows, each row a positional list of `Value` cells.
Scalar cells follow the dynamic typing of the source: null (None/NaN),
bool, int, float, or string.  Float literals are represented as scaled
decimals `m / 10 ^ e` (an `Int` mantissa and a `Nat` exponent), which is
exact for the decimal literals the CLI's expression language produces;
binary rounding of Python floats is not modelled.  String operations are
modelled on the ASCII fragment (Python's str.lower/str.strip also handle
non-ASCII classes, which no claim exercises).
-/

/-- A scalar cell value, as produced by pandas loading CSV/JSON and by the
coercion function of the source.  `null` stands for both Python `None` and
pandas `NaN` (see `pyStr` for the one place the two render differently). -/
inductive Value where
  | null : Value
  | vbool : Bool → Value
  | vint : Int → Value
  | vfloat : Int → Nat → Value
  | vstr : String → Value
deriving DecidableEq, Repr

/-- A row is a positional list of cells, aligned with the table's columns. -/
abbrev Row := List Value

/-- In-memory table: ordered column names and ordered rows. -/
structure Table where
  cols : List String
  rows : List Row
deriving DecidableEq, Repr

/-! ### String helpers (Python semantics, modelled structurally) -/

/-- Python str.strip(): drop leading and trailing whitespace. -/
def pyStrip (s : String) : String :=
  ⟨((s.data.dropWhile Char.isWhitespace).reverse.dropWhile Char.isWhitespace).reverse⟩

/-- Python str.lower() (ASCII range; no claim uses non-ASCII case folding). -/
def pyLower (s : String) : String :=
  ⟨s.data.map Char.toLower⟩

/-- Is `pat` a prefix of `hay`? -/
def isPrefixB : List Char → List Char → Bool
  | [], _ => true
  | _ :: _, [] => false
  | p :: ps, h :: hs => p == h && isPrefixB ps hs

/-- Is `pat` a contiguous substring of `hay`?  The empty pattern matches
everywhere (as does the empty regular expression in pandas str.contains). -/
def isInfixB (pat : List Char) : List Char → Bool
  | [] => pat.isEmpty
  | h :: hs => isPrefixB pat (h :: hs) || isInfixB pat hs

/-- Python expr.split(",") on the character list: split at every comma. -/
def splitCommaAux (cur : List Char) : List Char → List (List Char)
  | [] => [cur.reverse]
  | c :: rest =>
    if c = ',' then cur.reverse :: splitCommaAux [] rest
    else splitCommaAux (c :: cur) rest

/-- `[t for t in (x.strip() for x in expr.split(",")) if t]`: the condition
tokens of a comma-separated expression (both run_filter variants and
run_sort use exactly this tokenization). -/
def tokensOf (expr : String) : List String :=
  ((splitCommaAux [] expr.data).map (fun cs => pyStrip ⟨cs⟩)).filter (fun s => s != "")

/-- Digit run to a natural number (the characters are assumed decimal digits). -/
def digitsVal (cs : List Char) : Nat :=
  cs.foldl (fun a c => a * 10 + (c.toNat - 48)) 0

/-- Python str.isdigit() on the ASCII fragment: nonempty and all digits
(exotic Unicode digit classes are not modelled). -/
def pyIsDigit (s : String) : Bool :=
  !s.data.isEmpty && s.data.all Char.isDigit

/-! ### Numeric parsing and comparison

Numbers are scaled decimals `(m, e)` standing for `m / 10 ^ e`; comparisons
cross-multiply, which is exact.  Python's underscore separators, exponent
notation, and inf/nan literals are not modelled (none occur in the spec's
scenarios and they do not affect any claim). -/

/-- Python int(s) on an already syntax-checked token: optional sign then a
nonempty digit run. -/
def parseIntChars (cs : List Char) : Option Int :=
  match cs with
  | [] => none
  | c :: rest =>
    let p : Bool × List Char :=
      if c = '-' then (true, rest)
      else if c = '+' then (false, rest) else (false, c :: rest)
    if p.2 ≠ [] ∧ p.2.all Char.isDigit then
      some (if p.1 then -(digitsVal p.2 : Int) else (digitsVal p.2 : Int))
    else none

/-- Strip trailing zero decimal digits, so that 1.50 and 1.5 coincide (as
Python float values do). -/
def normFloat (m : Int) : Nat → Int × Nat
  | 0 => (m, 0)
  | e + 1 => if m % 10 = 0 then normFloat (m / 10) e else (m, e + 1)

/-- Python float(s) for plain decimal literals: optional sign, digits with
at most one decimal point, at least one digit overall ("1.", ".5", "7" are
all accepted, as in Python). -/
def parseFloatChars (cs : List Char) : Option (Int × Nat) :=
  match cs with
  | [] => none
  | c :: rest =>
    let p : Bool × List Char :=
      if c = '-' then (true, rest)
      else if c = '+' then (false, rest) else (false, c :: rest)
    let ds := p.2
    if ds.all (fun d => d.isDigit || d == '.') ∧ ds.any Char.isDigit ∧
        ds.count '.' ≤ 1 then
      let ip := ds.takeWhile (fun d => d ≠ '.')
      let fp := (ds.dropWhile (fun d => d ≠ '.')).drop 1
      let n : Int := (digitsVal (ip ++ fp) : Int)
      some (normFloat (if p.1 then -n else n) fp.length)
    else none

/-- `p ≤ q` on scaled decimals, by cross multiplication. -/
def numLe (p q : Int × Nat) : Bool :=
  decide (p.1 * 10 ^ q.2 ≤ q.1 * 10 ^ p.2)

/-- `p < q` on scaled decimals. -/
def numLt (p q : Int × Nat) : Bool :=
  decide (p.1 * 10 ^ q.2 < q.1 * 10 ^ p.2)

/-- `p = q` on scaled decimals. -/
def numEqB (p q : Int × Nat) : Bool :=
  decide (p.1 * 10 ^ q.2 = q.1 * 10 ^ p.2)

/-! ### Python text rendering (str(x) / astype(str)) -/

/-- Left-pad a digit string with zeros to width `e`. -/
def padZeros (e : Nat) (s : String) : String :=
  ⟨List.replicate (e - s.length) '0' ++ s.data⟩

/-- str() of a float `(m, e)` = m / 10^e, e.g. "1.0", "-0.5", "2.75".
Assumes the pair is normalized (no trailing zero decimals), which holds for
every float produced by `parseFloatChars`. -/
def pyStrFloat (m : Int) (e : Nat) : String :=
  let sign := if m < 0 then "-" else ""
  let n := m.natAbs
  if e = 0 then sign ++ toString n ++ ".0"
  else sign ++ toString (n / 10 ^ e) ++ "." ++ padZeros e (toString (n % 10 ^ e))

/-- Python str() of a cell, as used by astype(str) and str(value).
A cell that is pandas NaN renders "nan" while Python None renders "None";
both are collapsed into `Value.null` here and rendered "None".  The only
claim touching this rendering (the `~` null-cell claim) is settled with a
pattern contained in both spellings, so the collapse is harmless. -/
def pyStr : Value → String
  | .null => "None"
  | .vbool b => if b then "True" else "False"
  | .vint n => toString n
  | .vfloat m e => pyStrFloat m e
  | .vstr s => s

/-! ### Value coercion (milestone_3 coerce_value / milestone_4 to_val;
the two functions are line-for-line identical in the source) -/

/-- Unwrap a token enclosed in matching single or double quotes. -/
def quotedInner : List Char → Option (List Char)
  | [] => none
  | c :: rest =>
    if (c = '\'' ∨ c = '"') ∧ rest ≠ [] ∧ rest.getLast? = some c then
      some rest.dropLast
    else none

/-- to_val / coerce_value: turn a raw token into null/bool/int/float/str.
Quoted text is returned verbatim; then none/null, true/false; then a
number (float when a '.' is present, else int); else the text itself. -/
def to_val (s0 : String) : Value :=
  let s := pyStrip s0
  match quotedInner s.data with
  | some inner => .vstr ⟨inner⟩
  | none =>
    let low := pyLower s
    if low = "none" ∨ low = "null" then .null
    else if low = "true" then .vbool true
    else if low = "false" then .vbool false
    else if s.data.contains '.' then
      match parseFloatChars s.data with
      | some p => .vfloat p.1 p.2
      | none => .vstr s
    else
      match parseIntChars s.data with
      | some n => .vint n
      | none => .vstr s

/-! ### Condition parsing -/

/-- The closed operator set, in the scan order of the source tuple
("==", "!=", ">=", "<=", ">", "<", "~"). -/
inductive Op where
  | eq | ne | ge | le | gt | lt | contains
deriving DecidableEq, Repr

/-- Surface spelling of each operator. -/
def opStr : Op → String
  | .eq => "==" | .ne => "!=" | .ge => ">=" | .le => "<="
  | .gt => ">" | .lt => "<" | .contains => "~"

/-- Scan order of the operator tuple in both sources. -/
def OPS : List Op := [.eq, .ne, .ge, .le, .gt, .lt, .contains]

/-- Split `tok` around the first occurrence of `pat` (Python
tok.split(pat, 1) when `pat` occurs), scanning left to right. -/
def splitFirstAux (pat : List Char) (seen : List Char) :
    List Char → Option (List Char × List Char)
  | [] => if pat.isEmpty then some (seen.reverse, []) else none
  | h :: hs =>
    if isPrefixB pat (h :: hs) then
      some (seen.reverse, (h :: hs).drop pat.length)
    else splitFirstAux pat (h :: seen) hs

/-- First operator of the scan order occurring in the token, with the
left/right split around its first occurrence. -/
def findOp (tok : String) : List Op → Option (Op × String × String)
  | [] => none
  | op :: rest =>
    match splitFirstAux (opStr op).data [] tok.data with
    | some (l, r) => some (op, ⟨l⟩, ⟨r⟩)
    | none => findOp tok rest

/-- Shared body of milestone_3 parse_condition and milestone_4 parse_cond
(the two differ only in their error message strings and in milestone_3
stripping the token first, which run_filter has already done). -/
def parseCore (mcMsg mvMsg badMsg : String) (tok : String) :
    Except String (String × Op × Value) :=
  match findOp tok OPS with
  | none => .error badMsg
  | some (op, l, r) =>
    let l := pyStrip l
    let r := pyStrip r
    if l = "" then .error mcMsg
    else if op ≠ .contains ∧ r = "" then .error mvMsg
    else .ok (l, op, to_val r)

/-- milestone_4 parse_cond. -/
def parse_cond (tok : String) : Except String (String × Op × Value) :=
  parseCore "Missing column" "Missing value" ("Bad condition: " ++ tok) tok

/-- milestone_3 parse_condition (strips its token first). -/
def parse_condition (tok : String) : Except String (String × Op × Value) :=
  parseCore "Missing column name in condition." "Missing value in condition."
    ("Invalid condition: " ++ tok) (pyStrip tok)

/-! ### Expression evaluation (milestone_3 apply_condition /
milestone_4 mask_for) -/

/-- pd.to_numeric on a single cell with errors="coerce": numbers pass
through, booleans become 1/0, null stays missing (NaN), and strings are
parsed as decimal literals (unparsable text becomes NaN, i.e. `none`). -/
def toNum : Value → Option (Int × Nat)
  | .vint n => some (n, 0)
  | .vfloat m e => some (m, e)
  | .vbool b => some (if b then (1, 0) else (0, 0))
  | .null => none
  | .vstr s => parseFloatChars (pyStrip s).data

/-- One comparison of a numeric cell (NaN = `none`) against a numeric
right-hand side, with pandas NaN semantics: NaN compares unequal to every
number, so `!=` is the one operator a missing value satisfies. -/
def numericCellCmp (op : Op) (l : Option (Int × Nat)) (r : Int × Nat) : Bool :=
  match l with
  | none => op == .ne
  | some l =>
    match op with
    | .eq => numEqB l r
    | .ne => !numEqB l r
    | .gt => numLt r l
    | .ge => numLe r l
    | .lt => numLt l r
    | .le => numLe l r
    | .contains => false

/-- s.astype(str).str.contains(str(val), case=False, na=False): the cell's
text rendering is searched case-insensitively for the value's text
rendering.  pandas interprets the pattern as a regular expression; it is
modelled as a plain substring search, which coincides whenever the pattern
has no regex metacharacters (none of the claims' patterns have any).
Because astype(str) runs first, a null cell participates as the literal
text "None"/"nan" and the na=False argument never applies. -/
def cellContains (v : Value) (cell : Value) : Bool :=
  isInfixB (pyLower (pyStr v)).data (pyLower (pyStr cell)).data

/-- Python string less-than: lexicographic by code point. -/
def listLtB : List Char → List Char → Bool
  | [], [] => false
  | [], _ :: _ => true
  | _ :: _, [] => false
  | c :: cs, d :: ds =>
    if c.toNat < d.toNat then true
    else if d.toNat < c.toNat then false
    else listLtB cs ds

/-- Python `l < r` on strings. -/
def strLtB (l r : String) : Bool :=
  listLtB l.data r.data

/-- Python string comparison (lexicographic by code point), as performed
elementwise on an astype(str) column. -/
def strCmp (op : Op) (l r : String) : Bool :=
  match op with
  | .eq => l == r
  | .ne => l != r
  | .gt => strLtB r l
  | .ge => l == r || strLtB r l
  | .lt => strLtB l r
  | .le => l == r || strLtB l r
  | .contains => false

/-- Per-cell mask of milestone_4 mask_for.  For `~` the contains search;
otherwise: a numeric right-hand side (Python's isinstance(val, (int,
float)) is also true for bool) compares numerically against the cell
coerced to a number, while a string or None right-hand side compares the
cell's text rendering against str(val).  The source's column-level branch
`s if is_numeric_dtype(s) else pd.to_numeric(s, errors="coerce")` is
collapsed to the per-cell `toNum`, which agrees in both branches: cells of
a numeric-dtype column are numbers or NaN, on which `toNum` is the
identity. -/
def cellMask4 (op : Op) (v : Value) (cell : Value) : Bool :=
  match op with
  | .contains => cellContains v cell
  | _ =>
    match v with
    | .vint n => numericCellCmp op (toNum cell) (n, 0)
    | .vfloat m e => numericCellCmp op (toNum cell) (m, e)
    | .vbool b => numericCellCmp op (toNum cell) (if b then (1, 0) else (0, 0))
    | _ => strCmp op (pyStr cell) (pyStr v)

/-- milestone_4 mask_for over a column. -/
def mask_for (cells : List Value) (op : Op) (v : Value) : List Bool :=
  cells.map (cellMask4 op v)

/-- The right-hand-side re-parse of milestone_3 apply_condition:
`float(right) if "." in right else int(right)`. -/
def parseRight (s : String) : Option (Int × Nat) :=
  if s.data.contains '.' then parseFloatChars s.data
  else (parseIntChars s.data).map (fun n => (n, 0))

/-- Per-cell mask of milestone_3 apply_condition for the six comparison
operators and `~`.  After `left = pd.to_numeric(left, errors="coerce")`
the column is always numeric dtype, so a string right-hand side is always
re-parsed with `float(right) if "." in right else int(right)`; on parse
failure the source returns an all-False mask, reflected here by the
per-cell constant `false`. -/
def cellMask3 (op : Op) (v : Value) (cell : Value) : Bool :=
  match op with
  | .contains => cellContains v cell
  | _ =>
    match v with
    | .vstr s =>
      match parseRight s with
      | none => false
      | some r => numericCellCmp op (toNum cell) r
    | .vint n => numericCellCmp op (toNum cell) (n, 0)
    | .vfloat m e => numericCellCmp op (toNum cell) (m, e)
    | .vbool b => numericCellCmp op (toNum cell) (if b then (1, 0) else (0, 0))
    | .null => op == .ne
  -- null right-hand side: a numeric column compared to None is all-False
  -- for ==, all-True for != (None is treated as NaN); ordering raises,
  -- which apply_condition surfaces as an error.

/-- milestone_3 apply_condition.  Ordering a numeric column against a None
literal raises a TypeError in pandas, so those cases are errors; every
other case yields the elementwise mask. -/
def apply_condition (cells : List Value) (op : Op) (v : Value) :
    Except String (List Bool) :=
  if v = .null ∧ (op = .gt ∨ op = .ge ∨ op = .lt ∨ op = .le) then
    .error "TypeError: ordering comparison not supported between float and NoneType"
  else .ok (cells.map (cellMask3 op v))

/-! ### Column resolution and row selection -/

/-- Index of a column name in the header (columns are unique per the data
model, so the first match is the column). -/
def colIdxOf (cols : List String) (col : String) : Nat :=
  cols.findIdx (fun c => c == col)

/-- The cell of row `r` in column index `ci`. -/
def cellAt (ci : Nat) (r : Row) : Value :=
  r.getD ci .null

/-- df[col]: the column's cells in row order. -/
def colCells (t : Table) (col : String) : List Value :=
  t.rows.map (cellAt (colIdxOf t.cols col))

/-- column_map / cmap resolution: `{c.lower(): c}` maps a lowercased name
to the real name; a later duplicate key overwrites an earlier one, hence
the last match wins. -/
def resolveCol (cols : List String) (key : String) : Option String :=
  (cols.filter (fun c => pyLower c == key)).getLast?

/-- df[mask]: keep the rows whose mask entry is True, in order. -/
def selectRows (rows : List Row) (mask : List Bool) : List Row :=
  ((rows.zip mask).filter (fun p => p.2)).map (fun p => p.1)

/-! ### Filter engine -/

/-- The token loop of milestone_4 run_filter: parse each condition,
resolve its column case-insensitively, and AND its mask into the
accumulator. -/
def buildMask4 (t : Table) : List String → List Bool → Except String (List Bool)
  | [], mask => .ok mask
  | tok :: rest, mask =>
    match parse_cond tok with
    | .error e => .error e
    | .ok (colRaw, op, v) =>
      match resolveCol t.cols (pyLower colRaw) with
      | none => .error ("Unknown column " ++ colRaw)
      | some col =>
        buildMask4 t rest (List.zipWith and mask (mask_for (colCells t col) op v))

/-- milestone_4 run_filter: tokenize, fold the per-condition masks with
AND starting from all-True, and select the surviving rows.  Note the
source has no emptiness check: an expression with no tokens leaves the
all-True mask intact. -/
def m4_run_filter (t : Table) (expr : String) : Except String Table :=
  match buildMask4 t (tokensOf expr) (List.replicate t.rows.length true) with
  | .error e => .error e
  | .ok mask => .ok ⟨t.cols, selectRows t.rows mask⟩

/-- The token loop of milestone_3 run_filter (apply_condition can error). -/
def buildMask3 (t : Table) : List String → List Bool → Except String (List Bool)
  | [], mask => .ok mask
  | tok :: rest, mask =>
    match parse_condition tok with
    | .error e => .error e
    | .ok (colRaw, op, v) =>
      match resolveCol t.cols (pyLower colRaw) with
      | none => .error ("Unknown column " ++ colRaw)
      | some col =>
        match apply_condition (colCells t col) op v with
        | .error e => .error e
        | .ok m => buildMask3 t rest (List.zipWith and mask m)

/-- milestone_3 run_filter: rejects an expression that is empty after
stripping, then proceeds as milestone_4 does.  An expression that strips
to something nonempty but tokenizes to nothing (e.g. ",") passes the
check and returns the table unchanged. -/
def m3_run_filter (t : Table) (expr : String) : Except String Table :=
  if pyStrip expr = "" then .error "Filter expression is empty."
  else
    match buildMask3 t (tokensOf expr) (List.replicate t.rows.length true) with
    | .error e => .error e
    | .ok mask => .ok ⟨t.cols, selectRows t.rows mask⟩

/-! ### Sort engine

df.sort_values(by=[col], ascending=..., kind="mergesort") argsorts the
row positions with a stable algorithm, placing missing keys last
(na_position="last") for either direction; pandas implements the
descending case by reversing the input order, stably argsorting, and
reversing the resulting indexer, which keeps equal keys in their original
relative order.  Any two stable sorts under the same total comparator
produce the same output, so the argsort is modelled by a stable insertion
sort over the position-tagged rows. -/

/-- Can the sort key participate in a numeric comparison (Python compares
bools with numbers)? -/
def sortNum : Value → Option (Int × Nat)
  | .vint n => some (n, 0)
  | .vfloat m e => some (m, e)
  | .vbool b => some (if b then (1, 0) else (0, 0))
  | _ => none

/-- Key order for sort_values: strings lexicographically, numbers and
bools numerically.  Cross-kind pairs (and null, which pandas routes to the
missing-value group before comparing) are never ordered. -/
def keyLe (a b : Value) : Bool :=
  match a, b with
  | .vstr s, .vstr t => s == t || strLtB s t
  | a, b =>
    match sortNum a, sortNum b with
    | some p, some q => numLe p q
    | _, _ => false

/-- A column is orderable when its non-null cells are all numeric-or-bool
or all strings; otherwise Python raises a TypeError inside the sort. -/
def comparableCol (cells : List Value) : Bool :=
  let nn := cells.filter (fun c => c != .null)
  nn.all (fun c => (sortNum c).isSome) || nn.all (fun c => c matches .vstr _)

/-- Stable insertion: place `a` before the first element it is `le` to. -/
def ordInsert (le : α → α → Bool) (a : α) : List α → List α
  | [] => [a]
  | b :: l => if le a b then a :: b :: l else b :: ordInsert le a l

/-- Stable insertion sort. -/
def insSort (le : α → α → Bool) : List α → List α
  | [] => []
  | a :: l => ordInsert le a (insSort le l)

/-- Tag each row with its original position (the argsort's input). -/
def enumRows (rows : List Row) : List (Nat × Row) :=
  rows.enum

/-- The comparator used on position-tagged rows: ascending compares the
keys directly, descending flips the operands (the stable equivalent of
pandas reverse-argsort-reverse implementation of ascending=False). -/
def sortCmp (ci : Nat) (asc : Bool) (p q : Nat × Row) : Bool :=
  if asc then keyLe (cellAt ci p.2) (cellAt ci q.2)
  else keyLe (cellAt ci q.2) (cellAt ci p.2)

/-- sort_values on a resolved column, returning the position-tagged row
order: non-null keys stably sorted, null keys appended in original order. -/
def sortIdx (t : Table) (col : String) (asc : Bool) :
    Except String (List (Nat × Row)) :=
  let ci := colIdxOf t.cols col
  if comparableCol (t.rows.map (cellAt ci)) then
    let keyed := enumRows t.rows
    let nonNull := keyed.filter (fun p => cellAt ci p.2 != .null)
    let nulls := keyed.filter (fun p => !(cellAt ci p.2 != .null))
    .ok (insSort (sortCmp ci asc) nonNull ++ nulls)
  else .error "TypeError: sort column mixes incomparable types"

/-- milestone_4 run_sort, producing the position-tagged order: tokenize
(split on commas, strip, drop empties), first part is the column, second
the optional direction, resolve the column case-insensitively, sort. -/
def m4_run_sortIdx (t : Table) (expr : String) :
    Except String (List (Nat × Row)) :=
  match tokensOf expr with
  | [] => .error "Usage: sort <col>[,asc|desc]"
  | colRaw :: restParts =>
    let ord := match restParts with
      | [] => "asc"
      | o :: _ => pyLower o
    if ord ≠ "asc" ∧ ord ≠ "desc" then .error "Order must be asc/desc"
    else
      match resolveCol t.cols (pyLower colRaw) with
      | none => .error ("Unknown column " ++ colRaw)
      | some col => sortIdx t col (ord == "asc")

/-- milestone_4 run_sort: the sorted table (positions dropped). -/
def m4_run_sort (t : Table) (expr : String) : Except String Table :=
  match m4_run_sortIdx t expr with
  | .error e => .error e
  | .ok l => .ok ⟨t.cols, l.map (fun p => p.2)⟩

/-- milestone_3 run_sort (position-tagged): rejects an expression that
strips to empty; an expression like "," passes that check, tokenizes to
nothing, and crashes on parts[0] with an IndexError (modelled as an
error value, since the REPL catches every exception). -/
def m3_run_sortIdx (t : Table) (expr : String) :
    Except String (List (Nat × Row)) :=
  if pyStrip expr = "" then .error "Sort expression is empty."
  else
    match tokensOf expr with
    | [] => .error "IndexError: list index out of range"
    | colRaw :: restParts =>
      let ord := match restParts with
        | [] => "asc"
        | o :: _ => pyLower o
      if ord ≠ "asc" ∧ ord ≠ "desc" then .error "Order must be asc or desc"
      else
        match resolveCol t.cols (pyLower colRaw) with
        | none => .error ("Unknown column " ++ colRaw)
        | some col => sortIdx t col (ord == "asc")

/-- milestone_3 run_sort: the sorted table (positions dropped). -/
def m3_run_sort (t : Table) (expr : String) : Except String Table :=
  match m3_run_sortIdx t expr with
  | .error e => .error e
  | .ok l => .ok ⟨t.cols, l.map (fun p => p.2)⟩

/-! ### Paginator (milestone_4 Pager and the pagesize command) -/

/-- Pager state: the bound table, rows per page, current 1-based page. -/
structure Pager where
  df : Table
  size : Nat
  i : Nat
deriving DecidableEq, Repr

/-- Pager.__init__(df, size=5): size is clamped to at least 1, page 1. -/
def Pager.init (df : Table) (size : Int) : Pager :=
  ⟨df, (max 1 size).toNat, 1⟩

/-- Pager.set_df: rebind the table and reset to page 1. -/
def Pager.set_df (p : Pager) (df : Table) : Pager :=
  ⟨df, p.size, 1⟩

/-- Pager.pages: `max(1, (len(df) - 1) // size + 1)` with Python floor
division (for an empty table `(-1) // size` is `-1`, giving 1 page). -/
def Pager.pages (p : Pager) : Nat :=
  (max 1 (((p.df.rows.length : Int) - 1).fdiv (p.size : Int) + 1)).toNat

/-- Pager.view: `df.iloc[a : a + size]` with `a = (i - 1) * size`; iloc
clips the slice to the available rows. -/
def Pager.view (p : Pager) : List Row :=
  (p.df.rows.drop ((p.i - 1) * p.size)).take p.size

/-- The REPL's `pagesize N` command: a non-digit argument (including any
negative number, whose "-" fails str.isdigit) prints a usage line and
changes nothing; a digit argument is accepted and silently clamped via
`max(1, int(arg))`, resetting to page 1. -/
def pagesizeCmd (p : Pager) (arg : String) : Except String Pager :=
  if pyIsDigit arg then .ok ⟨p.df, max 1 (digitsVal arg.data), 1⟩
  else .error "Usage: pagesize N"

/-! ### Stability vocabulary for the sort claims -/

/-- Two sort keys that sort_values treats as ties: equal cells, or cells
ordered both ways by the key comparator. -/
def cellEquiv (a b : Value) : Prop :=
  a = b ∨ (keyLe a b = true ∧ keyLe b a = true)

/-- Stability relation on position-tagged rows for sort column index `ci`:
whenever the two rows carry tied keys, the earlier original position comes
first. -/
def stableR (ci : Nat) (p q : Nat × Row) : Prop :=
  cellEquiv (cellAt ci p.2) (cellAt ci q.2) → p.1 < q.1

/-! ### Characterization of the filter engine -/

/-- Does row `r` satisfy the condition written in `tok`, evaluated against
table `t` as milestone_4 does (parse, resolve the column, apply the
per-cell mask)?  False when the token does not parse or the column is
unknown, in which case run_filter errors out anyway. -/
def condBool4 (t : Table) (tok : String) (r : Row) : Bool :=
  match parse_cond tok with
  | .error _ => false
  | .ok (colRaw, op, v) =>
    match resolveCol t.cols (pyLower colRaw) with
    | none => false
    | some col => cellMask4 op v (cellAt (colIdxOf t.cols col) r)

/-- Same, with milestone_3's parser and per-cell mask. -/
def condBool3 (t : Table) (tok : String) (r : Row) : Bool :=
  match parse_condition tok with
  | .error _ => false
  | .ok (colRaw, op, v) =>
    match resolveCol t.cols (pyLower colRaw) with
    | none => false
    | some col => cellMask3 op v (cellAt (colIdxOf t.cols col) r)

/-- pandas is_numeric_dtype for a loaded column: every cell is an int, a
float, or missing (a numeric column with nulls is float dtype with NaN).
Purely bool columns are also numeric dtype in pandas, but they compare
identically under `toNum` (True/False coerce to 1/0), so the claims state
the int/float case the spec's scenarios use. -/
def numericDtype (cells : List Value) : Bool :=
  cells.all (fun c =>
    match c with
    | .vint _ => true
    | .vfloat _ _ => true
    | .null => true
    | _ => false)

/-- A coerced literal that is numeric in the sense of the spec (an int or
float produced by value coercion). -/
def numLit : Value → Option (Int × Nat)
  | .vint n => some (n, 0)
  | .vfloat m e => some (m, e)
  | _ => none

theorem replicate_length_eq_map_true (l : List α) :
    List.replicate l.length true = l.map (fun _ => true) := by
  induction l with
  | nil => rfl
  | cons a l ih => simp only [List.length_cons, List.replicate_succ, List.map_cons, ih]

theorem zipWith_and_map (g h : α → Bool) (l : List α) :
    List.zipWith and (l.map g) (l.map h) = l.map (fun x => g x && h x) := by
  induction l with
  | nil => rfl
  | cons a l ih => simp [ih]

theorem selectRows_map (p : Row → Bool) (l : List Row) :
    selectRows l (l.map p) = l.filter p := by
  induction l with
  | nil => rfl
  | cons a l ih =>
    by_cases hpa : p a <;>
      simp [selectRows, List.filter_cons, hpa] <;>
      simpa [selectRows] using ih

theorem mask_for_eq_map (t : Table) (col : String) (op : Op) (v : Value) :
    mask_for (colCells t col) op v =
      t.rows.map (fun r => cellMask4 op v (cellAt (colIdxOf t.cols col) r)) := by
  simp only [mask_for, colCells, List.map_map]
  rfl

theorem apply_condition_ok_eq (cells : List Value) (op : Op) (v : Value)
    (m : List Bool) (h : apply_condition cells op v = .ok m) :
    m = cells.map (cellMask3 op v) := by
  simp only [apply_condition] at h
  split at h
  · cases h
  · cases h; rfl

theorem buildMask4_char (t : Table) (toks : List String) :
    ∀ (g : Row → Bool) (mask : List Bool),
      buildMask4 t toks (t.rows.map g) = .ok mask →
      mask = t.rows.map
        (fun r => g r && toks.all (fun tok => condBool4 t tok r)) := by
  induction toks with
  | nil =>
    intro g mask h
    simp only [buildMask4] at h
    cases h
    simp
  | cons tok rest ih =>
    intro g mask h
    simp only [buildMask4] at h
    split at h
    · cases h
    rename_i cv colRaw op v hp
    split at h
    · cases h
    rename_i col hr
    rw [mask_for_eq_map, zipWith_and_map] at h
    have hm := ih _ _ h
    subst hm
    refine List.map_congr_left (fun r _ => ?_)
    simp [condBool4, hp, hr, Bool.and_assoc]

theorem buildMask3_char (t : Table) (toks : List String) :
    ∀ (g : Row → Bool) (mask : List Bool),
      buildMask3 t toks (t.rows.map g) = .ok mask →
      mask = t.rows.map
        (fun r => g r && toks.all (fun tok => condBool3 t tok r)) := by
  induction toks with
  | nil =>
    intro g mask h
    simp only [buildMask3] at h
    cases h
    simp
  | cons tok rest ih =>
    intro g mask h
    simp only [buildMask3] at h
    split at h
    · cases h
    rename_i cv colRaw op v hp
    split at h
    · cases h
    rename_i col hr
    split at h
    · cases h
    rename_i m ha
    have hmm := apply_condition_ok_eq _ _ _ _ ha
    subst hmm
    rw [show (colCells t col).map (cellMask3 op v) =
        t.rows.map (fun r => cellMask3 op v (cellAt (colIdxOf t.cols col) r)) from by
      simp only [colCells, List.map_map]; rfl] at h
    rw [zipWith_and_map] at h
    have hm := ih _ _ h
    subst hm
    refine List.map_congr_left (fun r _ => ?_)
    simp [condBool3, hp, hr, Bool.and_assoc]

/-- On success, milestone_4 run_filter is exactly a filter of the input
rows by the conjunction of all the expression's conditions. -/
theorem m4_run_filter_char (t : Table) (expr : String) (res : Table)
    (h : m4_run_filter t expr = .ok res) :
    res = ⟨t.cols, t.rows.filter
      (fun r => (tokensOf expr).all (fun tok => condBool4 t tok r))⟩ := by
  simp only [m4_run_filter] at h
  split at h
  · cases h
  rename_i mask hb
  cases h
  rw [replicate_length_eq_map_true] at hb
  have hm := buildMask4_char t (tokensOf expr) _ _ hb
  subst hm
  rw [show (t.rows.map fun r =>
      (fun (_ : Row) => true) r && (tokensOf expr).all fun tok => condBool4 t tok r)
      = t.rows.map fun r => (tokensOf expr).all fun tok => condBool4 t tok r from by
    simp]
  rw [selectRows_map]

/-- On success, milestone_3 run_filter is exactly a filter of the input
rows by the conjunction of all the expression's conditions. -/
theorem m3_run_filter_char (t : Table) (expr : String) (res : Table)
    (h : m3_run_filter t expr = .ok res) :
    res = ⟨t.cols, t.rows.filter
      (fun r => (tokensOf expr).all (fun tok => condBool3 t tok r))⟩ := by
  simp only [m3_run_filter] at h
  split at h
  · cases h
  split at h
  · cases h
  rename_i mask hb
  cases h
  rw [replicate_length_eq_map_true] at hb
  have hm := buildMask3_char t (tokensOf expr) _ _ hb
  subst hm
  rw [show (t.rows.map fun r =>
      (fun (_ : Row) => true) r && (tokensOf expr).all fun tok => condBool3 t tok r)
      = t.rows.map fun r => (tokensOf expr).all fun tok => condBool3 t tok r from by
    simp]
  rw [selectRows_map]

/-! ### Pagination claims -/

/-- The Python floor-division page count `max(1, (len - 1) // size + 1)`
equals the natural ceiling formula `max(1, ceil(len / size))`. -/
theorem pages_eq_ceil (len s : Nat) :
    (max 1 (((len : Int) - 1).fdiv ((s + 1 : Nat) : Int) + 1)).toNat
      = max 1 ((len + (s + 1) - 1) / (s + 1)) := by
  cases len with
  | zero =>
    rw [show ((0 : Nat) : Int) - 1 = -1 by norm_num]
    rw [show (-1 : Int).fdiv ((s + 1 : Nat) : Int) = Int.negSucc (0 / (s + 1)) from rfl]
    rw [Nat.zero_div]
    rw [show (0 + (s + 1) - 1) = s by omega]
    rw [Nat.div_eq_of_lt (Nat.lt_succ_self s)]
    rfl
  | succ n =>
    rw [show ((n + 1 : Nat) : Int) - 1 = (n : Int) by push_cast; ring]
    rw [← Int.ofNat_fdiv n (s + 1)]
    rw [show (n + 1 + (s + 1) - 1) = n + (s + 1) by omega]
    rw [Nat.add_div_right n (Nat.succ_pos s)]
    generalize n / (s + 1) = q
    omega

/-- C4: for every bound table (any row count, zero included) and page size
at least 1, the page count is max(1, ceil(row_count / size)), and view()
returns at most `size` rows, each drawn from the index range
[(page - 1) * size, row_count) of the bound table. -/
theorem pager_pages_view_invariant (p : Pager) (h : 1 ≤ p.size) :
    p.pages = max 1 ((p.df.rows.length + p.size - 1) / p.size)
    ∧ p.view.length ≤ p.size
    ∧ ∀ k, k < p.view.length →
        p.view[k]? = p.df.rows[(p.i - 1) * p.size + k]?
        ∧ (p.i - 1) * p.size + k < p.df.rows.length := by
  obtain ⟨s, hs⟩ : ∃ s, p.size = s + 1 := ⟨p.size - 1, by omega⟩
  refine ⟨?_, ?_, ?_⟩
  · rw [Pager.pages, hs]
    exact pages_eq_ceil p.df.rows.length s
  · rw [Pager.view, List.length_take]
    exact Nat.min_le_left _ _
  · intro k hk
    rw [Pager.view] at hk ⊢
    rw [List.length_take, List.length_drop] at hk
    constructor
    · rw [List.getElem?_take,
        if_pos (lt_of_lt_of_le hk (Nat.min_le_left _ _)), List.getElem?_drop]
    · have h2 : k < p.df.rows.length - (p.i - 1) * p.size :=
        lt_of_lt_of_le hk (Nat.min_le_right _ _)
      omega

/-- C4 witness: a 3-row table at page size 2, on page 2, has 2 pages. -/
theorem pager_pages_view_invariant_witness :
    (Pager.mk ⟨["A"], [[Value.vint 1], [Value.vint 2], [Value.vint 3]]⟩ 2 2).pages = 2 := by
  have h := pager_pages_view_invariant
    (Pager.mk ⟨["A"], [[Value.vint 1], [Value.vint 2], [Value.vint 3]]⟩ 2 2) (by decide)
  rw [h.1]
  rfl

/-- C9 counterexample: `pagesize 0` does not fail with an invalid-size
error; it succeeds and silently clamps the size to 1. -/
theorem pagesize_zero_silently_clamped :
    pagesizeCmd (Pager.mk ⟨["A"], []⟩ 5 3) "0" = .ok ⟨⟨["A"], []⟩, 1, 1⟩ := rfl

/-- C9 amended: a digit argument n (including 0) is accepted with the size
silently clamped to max(1, n) and the page reset to 1; a non-digit
argument (which is how any negative number arrives) is rejected with a
usage message; Pager.__init__ applies the same max(1, n) clamp. -/
theorem pagesize_clamp_behavior (p : Pager) (arg : String) :
    (pyIsDigit arg = true →
      pagesizeCmd p arg = .ok ⟨p.df, max 1 (digitsVal arg.data), 1⟩)
    ∧ (pyIsDigit arg = false →
      pagesizeCmd p arg = .error "Usage: pagesize N")
    ∧ ∀ (df : Table) (n : Int), Pager.init df n = ⟨df, (max 1 n).toNat, 1⟩ := by
  refine ⟨fun h => ?_, fun h => ?_, fun df n => rfl⟩ <;>
    simp [pagesizeCmd, h]

/-- C9 witness: `pagesize 2` sets size 2 and resets to page 1. -/
theorem pagesize_clamp_behavior_witness :
    pagesizeCmd (Pager.mk ⟨["A"], []⟩ 5 3) "2" = .ok ⟨⟨["A"], []⟩, 2, 1⟩ := by
  have h := (pagesize_clamp_behavior (Pager.mk ⟨["A"], []⟩ 5 3) "2").1 (by decide)
  exact h

/-! ### Filter claims -/

/-- C2: for every filter expression that evaluates successfully, both
run_filter variants return a table with the input's columns whose rows
form a subsequence of the input rows (so row count can only shrink and
relative order is preserved) and in which every row satisfies every
condition of the comma-separated (AND) expression. -/
theorem run_filter_conjunctive_subset_order (t : Table) (expr : String)
    (res3 res4 : Table) :
    (m3_run_filter t expr = .ok res3 →
      res3.cols = t.cols ∧ res3.rows.Sublist t.rows ∧
      res3.rows.length ≤ t.rows.length ∧
      ∀ r ∈ res3.rows, ∀ tok ∈ tokensOf expr, condBool3 t tok r = true)
    ∧ (m4_run_filter t expr = .ok res4 →
      res4.cols = t.cols ∧ res4.rows.Sublist t.rows ∧
      res4.rows.length ≤ t.rows.length ∧
      ∀ r ∈ res4.rows, ∀ tok ∈ tokensOf expr, condBool4 t tok r = true) := by
  constructor
  · intro h
    have hc := m3_run_filter_char t expr res3 h
    subst hc
    refine ⟨rfl, List.filter_sublist _, (List.filter_sublist _).length_le, ?_⟩
    intro r hr tok htok
    exact List.all_eq_true.mp (List.mem_filter.mp hr).2 tok htok
  · intro h
    have hc := m4_run_filter_char t expr res4 h
    subst hc
    refine ⟨rfl, List.filter_sublist _, (List.filter_sublist _).length_le, ?_⟩
    intro r hr tok htok
    exact List.all_eq_true.mp (List.mem_filter.mp hr).2 tok htok

/-- C2 witness: the spec's scenario `Age>=28,Dept==IT` on a 3-row table
keeps exactly the two IT rows aged 30 and 40, in order. -/
theorem run_filter_conjunctive_subset_order_witness :
    (Table.mk ["Age", "Dept"]
        [[Value.vint 30, Value.vstr "IT"], [Value.vint 40, Value.vstr "IT"]]).rows.Sublist
      (Table.mk ["Age", "Dept"]
        [[Value.vint 20, Value.vstr "HR"], [Value.vint 30, Value.vstr "IT"],
         [Value.vint 40, Value.vstr "IT"]]).rows := by
  have h := (run_filter_conjunctive_subset_order
    ⟨["Age", "Dept"],
      [[Value.vint 20, Value.vstr "HR"], [Value.vint 30, Value.vstr "IT"],
       [Value.vint 40, Value.vstr "IT"]]⟩
    "Age>=28,Dept==IT"
    ⟨["Age", "Dept"],
      [[Value.vint 30, Value.vstr "IT"], [Value.vint 40, Value.vstr "IT"]]⟩
    ⟨["Age", "Dept"],
      [[Value.vint 30, Value.vstr "IT"], [Value.vint 40, Value.vstr "IT"]]⟩).2 rfl
  exact h.2.1

/-- C8 counterexample: a commas-only expression is not rejected by
milestone_3 run_filter, and milestone_4 run_filter accepts even the empty
expression; both return the table unchanged instead of failing. -/
theorem run_filter_commas_only_counterexample :
    m3_run_filter ⟨["A"], [[Value.vint 1]]⟩ "," = .ok ⟨["A"], [[Value.vint 1]]⟩
    ∧ m4_run_filter ⟨["A"], [[Value.vint 1]]⟩ "" = .ok ⟨["A"], [[Value.vint 1]]⟩ :=
  ⟨rfl, rfl⟩

/-- C8 amended: milestone_3 run_filter rejects expressions that strip to
empty with "Filter expression is empty."; an expression that strips to
something nonempty but yields no tokens (only commas and whitespace)
passes the check and returns the table unchanged; milestone_4 run_filter
has no emptiness check at all and returns the table unchanged on every
token-free expression. -/
theorem run_filter_empty_expression_behavior (t : Table) (expr : String) :
    (pyStrip expr = "" →
      m3_run_filter t expr = .error "Filter expression is empty.")
    ∧ (pyStrip expr ≠ "" → tokensOf expr = [] → m3_run_filter t expr = .ok t)
    ∧ (tokensOf expr = [] → m4_run_filter t expr = .ok t) := by
  refine ⟨fun h => ?_, fun h htok => ?_, fun htok => ?_⟩
  · simp [m3_run_filter, h]
  · simp only [m3_run_filter, if_neg h, htok, buildMask3]
    rw [replicate_length_eq_map_true, selectRows_map, List.filter_true]
  · simp only [m4_run_filter, htok, buildMask4]
    rw [replicate_length_eq_map_true, selectRows_map, List.filter_true]

/-- C8 witness: a whitespace-only expression errors in milestone_3, while
"," survives the emptiness check and leaves the table unchanged. -/
theorem run_filter_empty_expression_behavior_witness :
    m3_run_filter ⟨["A"], [[Value.vint 1]]⟩ "  " = .error "Filter expression is empty."
    ∧ m3_run_filter ⟨["A"], [[Value.vint 1]]⟩ "," = .ok ⟨["A"], [[Value.vint 1]]⟩ := by
  refine ⟨(run_filter_empty_expression_behavior _ "  ").1 (by decide),
    (run_filter_empty_expression_behavior ⟨["A"], [[Value.vint 1]]⟩ ",").2.1
      (by decide) (by decide)⟩

theorem isInfixB_nil (hay : List Char) : isInfixB [] hay = true := by
  cases hay <;> simp [isInfixB, isPrefixB]

theorem cellContains_empty (c : Value) : cellContains (.vstr "") c = true := by
  have : (pyLower (pyStr (Value.vstr ""))).data = [] := rfl
  rw [cellContains, this, isInfixB_nil]

/-- C10: filtering with `col~` (contains, empty right side) on an existing
column returns the whole table unchanged: the empty pattern matches every
row, null cells included, in both milestone_4 and milestone_3. -/
theorem filter_contains_empty_returns_all (t : Table) (tok cn col : String) :
    (parse_cond tok = .ok (cn, .contains, .vstr "") →
      resolveCol t.cols (pyLower cn) = some col →
      tokensOf tok = [tok] →
      m4_run_filter t tok = .ok t)
    ∧ (parse_condition tok = .ok (cn, .contains, .vstr "") →
      resolveCol t.cols (pyLower cn) = some col →
      tokensOf tok = [tok] → pyStrip tok ≠ "" →
      m3_run_filter t tok = .ok t) := by
  have hmask : ∀ r : Row,
      cellMask4 .contains (.vstr "") (cellAt (colIdxOf t.cols col) r) = true := by
    intro r
    rw [show cellMask4 .contains (.vstr "") (cellAt (colIdxOf t.cols col) r)
        = cellContains (.vstr "") (cellAt (colIdxOf t.cols col) r) from rfl]
    exact cellContains_empty _
  constructor
  · intro hp hres htok
    simp only [m4_run_filter, htok, buildMask4, hp, hres]
    rw [mask_for_eq_map, replicate_length_eq_map_true, zipWith_and_map]
    rw [List.map_congr_left
      (fun (r : Row) _ => by rw [hmask r]; simp : ∀ r ∈ t.rows, _ = (fun _ => true) r)]
    rw [selectRows_map, List.filter_true]
  · intro hp hres htok hne
    have happ : apply_condition (colCells t col) Op.contains (.vstr "")
        = .ok ((colCells t col).map (cellMask3 .contains (.vstr ""))) := by
      rw [apply_condition, if_neg (by simp)]
    simp only [m3_run_filter, if_neg hne, htok, buildMask3, hp, hres, happ]
    rw [show (colCells t col).map (cellMask3 .contains (.vstr ""))
        = t.rows.map (fun r => cellMask3 .contains (.vstr "")
            (cellAt (colIdxOf t.cols col) r)) from by
      simp only [colCells, List.map_map]; rfl]
    rw [replicate_length_eq_map_true, zipWith_and_map]
    rw [List.map_congr_left
      (fun (r : Row) _ => by
        rw [show cellMask3 .contains (.vstr "") (cellAt (colIdxOf t.cols col) r)
            = cellContains (.vstr "") (cellAt (colIdxOf t.cols col) r) from rfl]
        rw [cellContains_empty]
        simp : ∀ r ∈ t.rows, _ = (fun _ => true) r)]
    rw [selectRows_map, List.filter_true]

/-- C10 witness: `Name~` on a table with a null and a text row keeps both
rows, in both variants. -/
theorem filter_contains_empty_returns_all_witness :
    m4_run_filter ⟨["Name"], [[Value.null], [Value.vstr "Ali"]]⟩ "Name~"
      = .ok ⟨["Name"], [[Value.null], [Value.vstr "Ali"]]⟩
    ∧ m3_run_filter ⟨["Name"], [[Value.null], [Value.vstr "Ali"]]⟩ "Name~"
      = .ok ⟨["Name"], [[Value.null], [Value.vstr "Ali"]]⟩ := by
  have h := filter_contains_empty_returns_all
    ⟨["Name"], [[Value.null], [Value.vstr "Ali"]]⟩ "Name~" "Name" "Name"
  exact ⟨h.1 rfl (by decide) (by decide),
    h.2 rfl (by decide) (by decide) (by decide)⟩

/-- C1 counterexample: in milestone_4, a non-numeric text literal against
a numeric column switches mask_for to string comparison, which can select
rows: `Age!=abc` keeps the row with Age 20 ("20" differs from "abc" as
text), and even `Age<abc` matches ("20" sorts before "abc"). -/
theorem m4_filter_nonnumeric_literal_counterexample :
    m4_run_filter ⟨["Age"], [[Value.vint 20]]⟩ "Age!=abc"
      = .ok ⟨["Age"], [[Value.vint 20]]⟩
    ∧ mask_for [Value.vint 20] Op.lt (Value.vstr "abc") = [true] :=
  ⟨rfl, rfl⟩

/-- C1 amended: the all-false behavior belongs to milestone_3: when the
single condition's coerced value is text that fails the numeric re-parse
(`float(right) if "." in right else int(right)`), apply_condition returns
an all-False mask for every comparison operator, so run_filter succeeds
with zero rows (the numeric-column hypothesis mirrors the claim's
scenario; the mask is all-False regardless). -/
theorem m3_filter_nonnumeric_literal_zero_rows
    (t : Table) (expr tok cn col s : String) (op : Op)
    (htok : tokensOf expr = [tok]) (hne : pyStrip expr ≠ "")
    (hp : parse_condition tok = .ok (cn, op, .vstr s)) (hop : op ≠ .contains)
    (hres : resolveCol t.cols (pyLower cn) = some col)
    (hnum : numericDtype (colCells t col) = true)
    (hs : parseRight s = none) :
    m3_run_filter t expr = .ok ⟨t.cols, []⟩ := by
  have happ : apply_condition (colCells t col) op (.vstr s)
      = .ok ((colCells t col).map (cellMask3 op (.vstr s))) := by
    rw [apply_condition, if_neg (by simp)]
  have hfalse : ∀ c, cellMask3 op (.vstr s) c = false := by
    intro c
    cases op <;> first
      | exact absurd rfl hop
      | simp [cellMask3, hs]
  simp only [m3_run_filter, if_neg hne, htok, buildMask3, hp, hres, happ]
  rw [show (colCells t col).map (cellMask3 op (.vstr s))
      = t.rows.map (fun r => cellMask3 op (.vstr s)
          (cellAt (colIdxOf t.cols col) r)) from by
    simp only [colCells, List.map_map]; rfl]
  rw [replicate_length_eq_map_true, zipWith_and_map]
  rw [List.map_congr_left
    (fun (r : Row) _ => by rw [hfalse]; simp : ∀ r ∈ t.rows, _ = (fun _ => false) r)]
  rw [selectRows_map, List.filter_false]

/-- C1 witness: the spec's scenario `Age>abc` on a numeric Age column
returns zero rows and no error in milestone_3. -/
theorem m3_filter_nonnumeric_literal_zero_rows_witness :
    m3_run_filter ⟨["Age"], [[Value.vint 20], [Value.vint 35]]⟩ "Age>abc"
      = .ok ⟨["Age"], []⟩ :=
  m3_filter_nonnumeric_literal_zero_rows
    ⟨["Age"], [[Value.vint 20], [Value.vint 35]]⟩ "Age>abc" "Age>abc" "Age" "Age"
    "abc" Op.gt (by decide) (by decide) rfl (by decide) (by decide) (by decide)
    (by decide)

/-- C5 counterexample: a cell that fails the numeric parse is NaN, and
pandas NaN compares unequal to every number, so `!=` against a numeric
literal selects the unparsable row instead of masking it False — in both
mask_for and apply_condition. -/
theorem mask_ne_unparsable_counterexample :
    mask_for [Value.vstr "abc"] Op.ne (Value.vint 5) = [true]
    ∧ apply_condition [Value.vstr "abc"] Op.ne (Value.vint 5) = .ok [true] :=
  ⟨rfl, rfl⟩

/-- C5 amended: with a numeric coerced literal, a cell that fails the
numeric parse (toNum = none, i.e. NaN) is a non-match for ==, >, >=, <, <=
but a match for != — its mask entry equals `op == ne` — and the evaluator
does not raise (apply_condition returns the elementwise mask). -/
theorem mask_unparsable_cell_matches_only_ne
    (cells : List Value) (op : Op) (v : Value) (q : Int × Nat) (cell : Value)
    (hv : numLit v = some q) (hop : op ≠ .contains)
    (hcell : toNum cell = none) :
    cellMask4 op v cell = (op == .ne)
    ∧ cellMask3 op v cell = (op == .ne)
    ∧ apply_condition cells op v = .ok (cells.map (cellMask3 op v)) := by
  have hvn : v ≠ .null := by
    intro h
    subst h
    simp [numLit] at hv
  refine ⟨?_, ?_, ?_⟩
  · cases v with
    | vint n => cases op <;> first
        | exact absurd rfl hop
        | simp [cellMask4, numericCellCmp, hcell]
    | vfloat m e => cases op <;> first
        | exact absurd rfl hop
        | simp [cellMask4, numericCellCmp, hcell]
    | null => simp [numLit] at hv
    | vbool b => simp [numLit] at hv
    | vstr s => simp [numLit] at hv
  · cases v with
    | vint n => cases op <;> first
        | exact absurd rfl hop
        | simp [cellMask3, numericCellCmp, hcell]
    | vfloat m e => cases op <;> first
        | exact absurd rfl hop
        | simp [cellMask3, numericCellCmp, hcell]
    | null => simp [numLit] at hv
    | vbool b => simp [numLit] at hv
    | vstr s => simp [numLit] at hv
  · rw [apply_condition, if_neg (by simp [hvn])]

/-- C5 witness: an unparsable text cell compared with == 5 is a non-match
and the evaluator returns a mask rather than raising. -/
theorem mask_unparsable_cell_matches_only_ne_witness :
    cellMask4 Op.eq (Value.vint 5) (Value.vstr "abc") = (Op.eq == Op.ne)
    ∧ cellMask3 Op.eq (Value.vint 5) (Value.vstr "abc") = (Op.eq == Op.ne)
    ∧ apply_condition [Value.vstr "abc"] Op.eq (Value.vint 5)
        = .ok ([Value.vstr "abc"].map (cellMask3 Op.eq (Value.vint 5))) :=
  mask_unparsable_cell_matches_only_ne [Value.vstr "abc"] Op.eq (Value.vint 5)
    (5, 0) (Value.vstr "abc") rfl (by decide) rfl

/-- C6 (code_bug evidence): the `~` mask is built after astype(str), which
renders a missing cell as the text "None" (or "nan"), so a null cell CAN
match a contains query — `Name~n` keeps a row whose Name is null, in both
variants — even though na=False was clearly meant to exclude missing
cells. -/
theorem contains_null_cell_matches :
    m4_run_filter ⟨["Name"], [[Value.null]]⟩ "Name~n"
      = .ok ⟨["Name"], [[Value.null]]⟩
    ∧ m3_run_filter ⟨["Name"], [[Value.null]]⟩ "Name~n"
      = .ok ⟨["Name"], [[Value.null]]⟩
    ∧ cellContains (Value.vstr "n") Value.null = true :=
  ⟨rfl, rfl, rfl⟩

/-! ### Sort claims -/

theorem perm_ordInsert (le : α → α → Bool) (a : α) (l : List α) :
    (ordInsert le a l).Perm (a :: l) := by
  induction l with
  | nil => exact List.Perm.refl _
  | cons b t ih =>
    rw [ordInsert]
    by_cases hle : le a b
    · rw [if_pos hle]
    · rw [if_neg hle]
      exact (ih.cons b).trans (List.Perm.swap a b t)

theorem perm_insSort (le : α → α → Bool) (l : List α) :
    (insSort le l).Perm l := by
  induction l with
  | nil => exact List.Perm.refl _
  | cons a t ih =>
    rw [insSort]
    exact (perm_ordInsert le a (insSort le t)).trans (ih.cons a)

theorem mem_ordInsert (le : α → α → Bool) (a x : α) (l : List α) :
    x ∈ ordInsert le a l ↔ x = a ∨ x ∈ l := by
  rw [(perm_ordInsert le a l).mem_iff]
  simp

/-- Inserting `a` preserves a pairwise relation, provided `a` relates to
every element and every element the comparator places before `a` relates
back to it. -/
theorem pairwise_ordInsert (le : α → α → Bool) (R : α → α → Prop) (a : α)
    (l : List α) (hR : l.Pairwise R) (hab : ∀ b ∈ l, R a b)
    (hba : ∀ b ∈ l, le a b = false → R b a) :
    (ordInsert le a l).Pairwise R := by
  induction l with
  | nil => simp [ordInsert]
  | cons b t ih =>
    rcases List.pairwise_cons.mp hR with ⟨hbt, ht⟩
    rw [ordInsert]
    by_cases hle : le a b
    · rw [if_pos hle]
      exact List.Pairwise.cons hab hR
    · rw [if_neg hle]
      have hle' : le a b = false := by
        revert hle
        cases le a b <;> simp
      refine List.Pairwise.cons ?_
        (ih ht (fun c hc => hab c (List.mem_cons_of_mem b hc))
            (fun c hc h => hba c (List.mem_cons_of_mem b hc) h))
      intro c hc
      rcases (mem_ordInsert le a c t).mp hc with rfl | hct
      · exact hba b (List.mem_cons_self b t) hle'
      · exact hbt c hct

/-- Stability of the insertion sort: a pairwise relation survives sorting
when the comparator can only place `y` before `x` (le x y false) in
situations where `R y x` holds. -/
theorem pairwise_insSort (le : α → α → Bool) (R : α → α → Prop) (l : List α)
    (hR : l.Pairwise R)
    (hfalse : ∀ x ∈ l, ∀ y ∈ l, le x y = false → R y x) :
    (insSort le l).Pairwise R := by
  induction l with
  | nil => simp [insSort]
  | cons a t ih =>
    rcases List.pairwise_cons.mp hR with ⟨hat, ht⟩
    rw [insSort]
    refine pairwise_ordInsert le R a (insSort le t)
      (ih ht (fun x hx y hy h =>
        hfalse x (List.mem_cons_of_mem a hx) y (List.mem_cons_of_mem a hy) h))
      ?_ ?_
    · intro b hb
      exact hat b ((perm_insSort le t).mem_iff.mp hb)
    · intro b hb h
      exact hfalse a (List.mem_cons_self a t)
        b (List.mem_cons_of_mem a ((perm_insSort le t).mem_iff.mp hb)) h

theorem enumFrom_fst_ge (n : Nat) (l : List α) :
    ∀ p ∈ List.enumFrom n l, n ≤ p.1 := by
  induction l generalizing n with
  | nil => simp [List.enumFrom]
  | cons a t ih =>
    intro p hp
    rw [List.enumFrom, List.mem_cons] at hp
    rcases hp with rfl | hp
    · exact Nat.le_refl n
    · exact Nat.le_trans (Nat.le_succ n) (ih (n + 1) p hp)

theorem pairwise_fst_lt_enumFrom (n : Nat) (l : List α) :
    (List.enumFrom n l).Pairwise (fun p q => p.1 < q.1) := by
  induction l generalizing n with
  | nil => simp [List.enumFrom]
  | cons a t ih =>
    rw [List.enumFrom]
    exact List.Pairwise.cons
      (fun q hq => Nat.lt_of_lt_of_le (Nat.lt_succ_self n)
        (enumFrom_fst_ge (n + 1) t q hq))
      (ih (n + 1))

theorem pairwise_fst_lt_enumRows (rows : List Row) :
    (enumRows rows).Pairwise (fun p q => p.1 < q.1) :=
  pairwise_fst_lt_enumFrom 0 rows

theorem keyLe_null_right (v : Value) : keyLe v .null = false := by
  cases v <;> rfl

theorem keyLe_refl (v : Value) (h : v ≠ .null) : keyLe v v = true := by
  cases v with
  | null => exact absurd rfl h
  | vbool b => cases b <;> rfl
  | vint n => exact decide_eq_true (le_refl _)
  | vfloat m e => exact decide_eq_true (le_refl _)
  | vstr s => simp [keyLe]

/-- sort_values is a stable reordering: on success, sortIdx returns a
permutation of the position-tagged rows in which any two rows carrying
tied keys keep their original relative order. -/
theorem sortIdx_stable (t : Table) (col : String) (asc : Bool)
    (l : List (Nat × Row)) (h : sortIdx t col asc = .ok l) :
    (enumRows t.rows).Perm l
    ∧ l.Pairwise (stableR (colIdxOf t.cols col)) := by
  simp only [sortIdx] at h
  split at h
  case isFalse => cases h
  case isTrue hcomp =>
    cases h
    set ci := colIdxOf t.cols col with hci
    set keyed := enumRows t.rows with hkeyed
    set pred : Nat × Row → Bool := fun p => cellAt ci p.2 != .null with hpred
    set nn := keyed.filter pred with hnn
    set nulls := keyed.filter (fun p => !pred p) with hnulls
    have hmemnn : ∀ x ∈ nn, cellAt ci x.2 ≠ .null := by
      intro x hx
      have := (List.mem_filter.mp hx).2
      simpa [hpred] using this
    have hmemnull : ∀ y ∈ nulls, cellAt ci y.2 = .null := by
      intro y hy
      have := (List.mem_filter.mp hy).2
      simpa [hpred] using this
    constructor
    · exact (((perm_insSort (sortCmp ci asc) nn).append_right nulls).trans
        (List.filter_append_perm pred keyed)).symm
    · rw [List.pairwise_append]
      refine ⟨?_, ?_, ?_⟩
      · refine pairwise_insSort _ _ _ ?_ ?_
        · have base : nn.Pairwise (fun p q => p.1 < q.1) :=
            List.Pairwise.sublist (List.filter_sublist keyed)
              (pairwise_fst_lt_enumRows t.rows)
          exact List.Pairwise.imp
            (show ∀ {a b : Nat × Row}, a.1 < b.1 → stableR ci a b from
              fun hlt _ => hlt) base
        · intro x hx y hy hle hequiv
          exfalso
          have hxnn := hmemnn x hx
          cases asc with
          | true =>
            have hle' : keyLe (cellAt ci x.2) (cellAt ci y.2) = false := by
              simpa [sortCmp] using hle
            rcases hequiv with heq | ⟨h1, h2⟩
            · rw [heq, keyLe_refl _ hxnn] at hle'
              cases hle'
            · rw [h2] at hle'
              cases hle'
          | false =>
            have hle' : keyLe (cellAt ci y.2) (cellAt ci x.2) = false := by
              simpa [sortCmp] using hle
            rcases hequiv with heq | ⟨h1, h2⟩
            · rw [← heq, keyLe_refl _ (hmemnn y hy)] at hle'
              cases hle'
            · rw [h1] at hle'
              cases hle'
      · have base : nulls.Pairwise (fun p q => p.1 < q.1) :=
          List.Pairwise.sublist (List.filter_sublist keyed)
            (pairwise_fst_lt_enumRows t.rows)
        exact List.Pairwise.imp
          (show ∀ {a b : Nat × Row}, a.1 < b.1 → stableR ci a b from
            fun hlt _ => hlt) base
      · intro x hx y hy hequiv
        exfalso
        have hxnn := hmemnn x ((perm_insSort _ nn).mem_iff.mp hx)
        have hynull := hmemnull y hy
        rcases hequiv with heq | ⟨h1, h2⟩
        · rw [hynull] at heq
          exact hxnn heq
        · rw [hynull, keyLe_null_right] at h1
          cases h1

/-- C3: run_sort is stable in both variants and both directions, with
respect to the column the sort expression resolves to: on success the
expression tokenizes to a first token that resolves (case-insensitively)
to a column `col`, the position-tagged result is a permutation of the
input's position-tagged rows, any two rows with tied keys in that column
(equal cells included) keep their original relative order, and run_sort
returns exactly those rows.  `tokensOf` and `resolveCol` are functions,
so `colRaw` and `col` are uniquely determined by the table and the
expression. -/
theorem run_sort_stable (t : Table) (expr : String) (l3 l4 : List (Nat × Row)) :
    (m3_run_sortIdx t expr = .ok l3 →
      ∃ colRaw rest col, tokensOf expr = colRaw :: rest
        ∧ resolveCol t.cols (pyLower colRaw) = some col
        ∧ (enumRows t.rows).Perm l3
        ∧ l3.Pairwise (stableR (colIdxOf t.cols col))
        ∧ m3_run_sort t expr = .ok ⟨t.cols, l3.map (fun p => p.2)⟩)
    ∧ (m4_run_sortIdx t expr = .ok l4 →
      ∃ colRaw rest col, tokensOf expr = colRaw :: rest
        ∧ resolveCol t.cols (pyLower colRaw) = some col
        ∧ (enumRows t.rows).Perm l4
        ∧ l4.Pairwise (stableR (colIdxOf t.cols col))
        ∧ m4_run_sort t expr = .ok ⟨t.cols, l4.map (fun p => p.2)⟩) := by
  constructor
  · intro h
    have hrs : m3_run_sort t expr = .ok ⟨t.cols, l3.map (fun p => p.2)⟩ := by
      simp [m3_run_sort, h]
    simp only [m3_run_sortIdx] at h
    split at h
    · cases h
    split at h
    · cases h
    rename_i colRaw restParts htoks
    split at h
    · cases h
    split at h
    · cases h
    rename_i col hres
    obtain ⟨hperm, hpw⟩ := sortIdx_stable t col _ l3 h
    exact ⟨colRaw, restParts, col, htoks, hres, hperm, hpw, hrs⟩
  · intro h
    have hrs : m4_run_sort t expr = .ok ⟨t.cols, l4.map (fun p => p.2)⟩ := by
      simp [m4_run_sort, h]
    simp only [m4_run_sortIdx] at h
    split at h
    · cases h
    rename_i colRaw restParts htoks
    split at h
    · cases h
    split at h
    · cases h
    rename_i col hres
    obtain ⟨hperm, hpw⟩ := sortIdx_stable t col _ l4 h
    exact ⟨colRaw, restParts, col, htoks, hres, hperm, hpw, hrs⟩

/-- C3 witness: the spec's scenario — two rows with equal key A=1 and
B "x"/"y" sorted by "A" — resolves to column A and stays in B-order
x, y after the sort. -/
theorem run_sort_stable_witness :
    ∃ colRaw rest col,
      tokensOf "A" = colRaw :: rest
      ∧ resolveCol (["A", "B"] : List String) (pyLower colRaw) = some col
      ∧ (enumRows ([[Value.vint 1, Value.vstr "x"], [Value.vint 1, Value.vstr "y"]] :
          List Row)).Perm
        [(0, [Value.vint 1, Value.vstr "x"]), (1, [Value.vint 1, Value.vstr "y"])]
      ∧ [(0, ([Value.vint 1, Value.vstr "x"] : Row)),
         (1, [Value.vint 1, Value.vstr "y"])].Pairwise
          (stableR (colIdxOf ["A", "B"] col))
      ∧ m4_run_sort ⟨["A", "B"],
          [[Value.vint 1, Value.vstr "x"], [Value.vint 1, Value.vstr "y"]]⟩ "A"
        = .ok ⟨["A", "B"],
            [(0, ([Value.vint 1, Value.vstr "x"] : Row)),
             (1, [Value.vint 1, Value.vstr "y"])].map (fun p => p.2)⟩ :=
  (run_sort_stable
    ⟨["A", "B"], [[Value.vint 1, Value.vstr "x"], [Value.vint 1, Value.vstr "y"]]⟩
    "A"
    [(0, [Value.vint 1, Value.vstr "x"]), (1, [Value.vint 1, Value.vstr "y"])]
    [(0, [Value.vint 1, Value.vstr "x"]), (1, [Value.vint 1, Value.vstr "y"])]).2
    rfl

/-! ### Condition-parser claims -/

/-- Appending anything to a string whose first character differs from
another string's first character never yields that other string. -/
theorem append_ne_of_head_ne (s t u : String) (c d : Char)
    (cs ds : List Char) (hs : s.data = c :: cs) (ht : t.data = d :: ds)
    (hcd : c ≠ d) : s ++ u ≠ t := by
  intro h
  have hd := congrArg String.data h
  rw [String.data_append, hs, ht] at hd
  rw [List.cons_append] at hd
  exact hcd (List.head_eq_of_cons_eq hd)

theorem parseCore_missing_value (mc mv bad tok : String)
    (hmc : mc ≠ mv) (hbad : bad ≠ mv) :
    parseCore mc mv bad tok = .error mv ↔
      ∃ op l r, findOp tok OPS = some (op, l, r) ∧ pyStrip l ≠ "" ∧
        pyStrip r = "" ∧ op ≠ .contains := by
  constructor
  · intro h
    simp only [parseCore] at h
    split at h
    · injection h with h1
      exact absurd h1 hbad
    rename_i x op l r hfind
    split at h
    · injection h with h1
      exact absurd h1 hmc
    rename_i hl
    split at h
    · rename_i hcond
      exact ⟨op, l, r, hfind, hl, hcond.2, hcond.1⟩
    · cases h
  · rintro ⟨op, l, r, hfind, hl, hr, hop⟩
    simp only [parseCore, hfind]
    rw [if_neg hl, if_pos ⟨hop, hr⟩]

theorem parseCore_contains_ok (mc mv bad tok l r : String)
    (hfind : findOp tok OPS = some (.contains, l, r)) (hl : pyStrip l ≠ "") :
    parseCore mc mv bad tok = .ok (pyStrip l, .contains, to_val (pyStrip r)) := by
  simp only [parseCore, hfind]
  rw [if_neg hl, if_neg (by simp)]

/-- C7 amended: the parsers fail with their "missing value" error exactly
when the operator split succeeds with a NONEMPTY left side, an empty
trimmed right side, and an operator other than `~`; and a `~` condition
with empty right side parses successfully ONLY when its column part is
nonempty (an empty left side hits the "missing column" check first, as
the counterexample `~` shows). -/
theorem parse_missing_value_characterization (tok : String) :
    (parse_cond tok = .error "Missing value" ↔
      ∃ op l r, findOp tok OPS = some (op, l, r) ∧ pyStrip l ≠ "" ∧
        pyStrip r = "" ∧ op ≠ .contains)
    ∧ (parse_condition tok = .error "Missing value in condition." ↔
      ∃ op l r, findOp (pyStrip tok) OPS = some (op, l, r) ∧ pyStrip l ≠ "" ∧
        pyStrip r = "" ∧ op ≠ .contains)
    ∧ (∀ l r, findOp tok OPS = some (.contains, l, r) → pyStrip l ≠ "" →
      parse_cond tok = .ok (pyStrip l, .contains, to_val (pyStrip r)))
    ∧ (∀ l r, findOp (pyStrip tok) OPS = some (.contains, l, r) → pyStrip l ≠ "" →
      parse_condition tok = .ok (pyStrip l, .contains, to_val (pyStrip r))) := by
  refine ⟨?_, ?_, ?_, ?_⟩
  · exact parseCore_missing_value _ _ _ _ (by decide)
      (append_ne_of_head_ne _ _ _ 'B' 'M' _ _ rfl rfl (by decide))
  · exact parseCore_missing_value _ _ _ _ (by decide)
      (append_ne_of_head_ne _ _ _ 'I' 'M' _ _ rfl rfl (by decide))
  · exact fun l r hfind hl => parseCore_contains_ok _ _ _ _ _ _ hfind hl
  · exact fun l r hfind hl => parseCore_contains_ok _ _ _ _ _ _ hfind hl

/-- C7 counterexample: the token `~` has operator `~` and an empty right
side, yet it is NOT accepted — the empty left side fails first with the
missing-column error, in both parsers; likewise `<` has an empty trimmed
right side and an operator other than `~` yet does not produce the
missing-value error, refuting the other direction of the biconditional. -/
theorem parse_tilde_empty_rejected :
    parse_cond "~" = .error "Missing column"
    ∧ parse_condition "~" = .error "Missing column name in condition."
    ∧ parse_cond "<" = .error "Missing column" :=
  ⟨rfl, rfl, rfl⟩

/-- C7 witness: `a~` (contains with empty right side, nonempty column)
parses successfully; `a>` fails with the missing-value error. -/
theorem parse_missing_value_characterization_witness :
    parse_cond "a~" = .ok ("a", .contains, to_val (pyStrip ""))
    ∧ parse_cond "a>" = .error "Missing value" := by
  constructor
  · exact (parse_missing_value_characterization "a~").2.2.1 "a" "" rfl (by decide)
  · exact ((parse_missing_value_characterization "a>").1).mpr
      ⟨.gt, "a", "", rfl, by decide, by decide, by decide⟩
